import Mathlib

/-!
Shallow embedding of `src/tasks.py` of openrelik-worker-tsk: a worker task
that classifies filesystem-forensic artifact files by display name, runs a
TSK command (`fls -r` or `icat`) per matched file, and aggregates the
produced output files into a task result.

Python strings are embedded as Lean `String`; Python's substring test
`needle in hay` as `pyIn`; `str.lower()` as `pyLower`; the `commands` dict
as an association list with lookup `commandFor` (a missing key, a `KeyError`
in Python, is `none`); the task body as `run`, returning `Except RunError
TaskResult` (`RunError.noArtifacts` embeds the `RuntimeError` of line 103,
`RunError.keyError` a `KeyError` escaping the summary construction of
line 107). The subprocess invocations (line 98) are recorded as the list
`execCmds` of argument vectors.
-/

/-- `startsWithChars n h`: the char list `n` is an initial segment of `h`. -/
def startsWithChars : List Char → List Char → Bool
  | [], _ => true
  | _ :: _, [] => false
  | a :: as, b :: bs => (a == b) && startsWithChars as bs

/-- `pyInChars n h`: the char list `n` occurs contiguously inside `h`
(Python's `n in h` on strings, code point by code point). -/
def pyInChars (n : List Char) : List Char → Bool
  | [] => n.isEmpty
  | c :: t => startsWithChars n (c :: t) || pyInChars n t

/-- Python's substring test `needle in hay`. -/
def pyIn (needle hay : String) : Bool :=
  pyInChars needle.data hay.data

/-- Python's `str.lower()` (ASCII case folding, as used on the file names here). -/
def pyLower (s : String) : String :=
  ⟨s.data.map Char.toLower⟩

/-- An entry of the `input_files` list: a dict with at least
`display_name` and `path` (tasks.py lines 84, 90, 95). -/
structure InputFile where
  display_name : String
  path : String
  deriving DecidableEq

/-- The descriptor returned by `create_output_file` (tasks.py lines 88-93). -/
structure OutputFile where
  path : String
  display_name : String
  extension : String
  data_type : String
  deriving DecidableEq

/-- The record assembled by `create_task_result` (tasks.py lines 104-108). -/
structure TaskResult where
  output_files : List OutputFile
  workflow_id : String
  command : String
  meta : List (String × String)
  deriving DecidableEq

/-- How a run of the task can fail: the `RuntimeError("No valid file system
artifacts processed.")` of line 103, or a `KeyError` from `commands[t]` in
the summary construction of line 107. -/
inductive RunError where
  | noArtifacts
  | keyError
  deriving DecidableEq

/-- The fixed registry of tasks.py lines 75-81: artifact type → command
template (the dict, embedded as an association list in source order). -/
def commands : List (String × List String) :=
  [("mft", ["fls", "-r"]),
   ("journal", ["icat"]),
   ("boot_log", ["icat"]),
   ("logfile", ["icat"]),
   ("io3", ["icat"])]

/-- Dict lookup `commands[t]`: `some` template for a registered type,
`none` (Python: `KeyError`) otherwise. -/
def commandFor (t : String) : Option (List String) :=
  (commands.find? (fun p => p.1 == t)).map (fun p => p.2)

/-- Line 85: `next((t for t in artifact_types if t in file_name), None)`
with `file_name = display_name.lower()` (line 84): the first requested type
whose identifier occurs in the lowercased display name. -/
def classify (display_name : String) (artifact_types : List String) : Option String :=
  artifact_types.find? (fun t => pyIn t (pyLower display_name))

/-- Modelled from the spec: `create_output_file` lives in the external
collaborator `openrelik_worker_common.file_utils`, not in this repository.
Per the spec, the OutputFile it returns has a writable destination path in
the output directory and carries the given display name, extension and
data-type tag; the path is modelled as the output directory followed by the
display name and extension. -/
def create_output_file (output_path display_name extension data_type : String) :
    OutputFile :=
  { path := output_path ++ ("/" ++ (display_name ++ extension)),
    display_name := display_name,
    extension := extension,
    data_type := data_type }

/-- Modelled from the spec: `create_task_result` lives in the external
collaborator `openrelik_worker_common.task_utils`, not in this repository.
Per the spec it packages the produced output files, the workflow identifier,
the command summary and the metadata into the returned task result. -/
def create_task_result (output_files : List OutputFile) (workflow_id : String)
    (command : String) (meta : List (String × String)) : TaskResult :=
  ⟨output_files, workflow_id, command, meta⟩

/-- The output file built for a matched input (tasks.py lines 88-93):
fixed extension ".txt", fixed data type "filesystem_artifact", display name
taken unchanged from the input. -/
def mkOutputFile (output_path : String) (i : InputFile) : OutputFile :=
  create_output_file output_path i.display_name ".txt" "filesystem_artifact"

/-- One iteration of the loop body (tasks.py lines 84-100) for one input
file: `none` when the file is skipped (no classified type, a falsy matched
type, or a matched type missing from `commands`), otherwise the created
output file together with the argument vector handed to `subprocess.Popen`
(line 95: the template plus the input file's path). -/
def processStep (artifact_types : List String) (output_path : String)
    (i : InputFile) : Option (OutputFile × List String) :=
  match classify i.display_name artifact_types with
  | none => none
  | some t =>
    if t == "" then none
    else
      match commandFor t with
      | none => none
      | some tpl => some (mkOutputFile output_path i, tpl ++ [i.path])

/-- The loop of tasks.py lines 83-100 over the whole input list: the
accumulated `output_files` and the argument vectors of the spawned
subprocesses, both in input order. -/
def runLoop (input_files : List InputFile) (artifact_types : List String)
    (output_path : String) : List OutputFile × List (List String) :=
  match input_files with
  | [] => ([], [])
  | i :: rest =>
    match processStep artifact_types output_path i with
    | none => runLoop rest artifact_types output_path
    | some oc =>
      (oc.1 :: (runLoop rest artifact_types output_path).1,
       oc.2 :: (runLoop rest artifact_types output_path).2)

/-- The `output_files` list accumulated by the loop. -/
def processFiles (input_files : List InputFile) (artifact_types : List String)
    (output_path : String) : List OutputFile :=
  (runLoop input_files artifact_types output_path).1

/-- The argument vectors of the subprocess invocations made by the loop. -/
def execCmds (input_files : List InputFile) (artifact_types : List String)
    (output_path : String) : List (List String) :=
  (runLoop input_files artifact_types output_path).2

/-- Python's `sep.join(parts)`. -/
def joinWith (sep : String) : List String → String
  | [] => ""
  | [s] => s
  | s :: rest => s ++ (sep ++ joinWith sep rest)

/-- The summary pieces of tasks.py line 107:
`[" ".join(commands[t] + [f.get('path')]) for t, f in zip(artifact_types, output_files)]`.
Note the source pairs the output files positionally with `artifact_types`
(not with the types that matched them) and uses the OUTPUT file's path.
`none` embeds the `KeyError` raised when a zipped type is unregistered. -/
def summaryParts : List (String × OutputFile) → Option (List String)
  | [] => some []
  | (t, f) :: rest =>
    match commandFor t with
    | none => none
    | some tpl =>
      (summaryParts rest).map (fun l => joinWith " " (tpl ++ [f.path]) :: l)

/-- The task body (tasks.py lines 71-108) after input resolution: run the
loop, raise `noArtifacts` when no output file was produced (lines 102-103),
otherwise build the summary of line 107 and return the task result. -/
def run (input_files : List InputFile) (artifact_types : List String)
    (output_path workflow_id : String) : Except RunError TaskResult :=
  if (processFiles input_files artifact_types output_path).isEmpty then
    Except.error RunError.noArtifacts
  else
    match summaryParts
        (artifact_types.zip (processFiles input_files artifact_types output_path)) with
    | none => Except.error RunError.keyError
    | some parts =>
      Except.ok (create_task_result (processFiles input_files artifact_types output_path)
        workflow_id (joinWith "; " parts) [])

/-- The task entry point `command` with its configuration handling
(tasks.py line 73): `task_config.get("artifact_types", [])` — an absent
key yields the empty list. -/
def command (input_files : List InputFile)
    (artifact_types_config : Option (List String))
    (output_path workflow_id : String) : Except RunError TaskResult :=
  run input_files (artifact_types_config.getD []) output_path workflow_id

theorem startsWithChars_iff (n : List Char) :
    ∀ h, startsWithChars n h = true ↔ ∃ t, h = n ++ t := by
  induction n with
  | nil =>
    intro h
    simp [startsWithChars]
  | cons a as ih =>
    intro h
    cases h with
    | nil =>
      simp [startsWithChars]
    | cons b bs =>
      rw [startsWithChars]
      simp only [Bool.and_eq_true, beq_iff_eq, ih, List.cons_append, List.cons.injEq]
      constructor
      · rintro ⟨rfl, t, rfl⟩
        exact ⟨t, rfl, rfl⟩
      · rintro ⟨t, rfl, rfl⟩
        exact ⟨rfl, t, rfl⟩

theorem pyInChars_iff (n : List Char) :
    ∀ h, pyInChars n h = true ↔ ∃ l₁ l₂, h = l₁ ++ (n ++ l₂) := by
  intro h
  induction h with
  | nil =>
    rw [pyInChars]
    simp only [List.isEmpty_iff]
    constructor
    · rintro rfl
      exact ⟨[], [], rfl⟩
    · rintro ⟨l₁, l₂, hh⟩
      rcases l₁ with _ | ⟨x, xs⟩
      · rcases n with _ | ⟨y, ys⟩
        · rfl
        · exact absurd hh (by simp)
      · exact absurd hh (by simp)
  | cons c t ih =>
    rw [pyInChars]
    simp only [Bool.or_eq_true, startsWithChars_iff, ih]
    constructor
    · rintro (⟨t', ht'⟩ | ⟨l₁, l₂, hl⟩)
      · exact ⟨[], t', by simpa using ht'⟩
      · exact ⟨c :: l₁, l₂, by simp [hl]⟩
    · rintro ⟨l₁, l₂, hh⟩
      rcases l₁ with _ | ⟨x, xs⟩
      · exact Or.inl ⟨l₂, by simpa using hh⟩
      · injection hh with h1 h2
        exact Or.inr ⟨xs, l₂, h2⟩

theorem find?_first {α : Type} (p : α → Bool) :
    ∀ (l : List α) (x : α),
      l.find? p = some x ↔
        ∃ l₁ l₂, l = l₁ ++ x :: l₂ ∧ p x = true ∧ ∀ u ∈ l₁, p u = false := by
  intro l
  induction l with
  | nil =>
    intro x
    constructor
    · intro h
      simp [List.find?] at h
    · rintro ⟨l₁, l₂, h, -, -⟩
      exact absurd h (by cases l₁ <;> simp)
  | cons a l ih =>
    intro x
    cases hpa : p a with
    | true =>
      rw [List.find?_cons_of_pos _ hpa]
      constructor
      · intro h
        injection h with h
        subst h
        exact ⟨[], l, rfl, hpa, by intro u hu; cases hu⟩
      · rintro ⟨l₁, l₂, heq, hpx, hall⟩
        cases l₁ with
        | nil =>
          injection heq with h1 h2
          rw [h1]
        | cons b l₁ =>
          injection heq with h1 h2
          subst h1
          have : p a = false := hall a (by simp)
          rw [this] at hpa
          cases hpa
    | false =>
      rw [List.find?_cons_of_neg _ (by simp [hpa]), ih]
      constructor
      · rintro ⟨l₁, l₂, rfl, hpx, hall⟩
        refine ⟨a :: l₁, l₂, rfl, hpx, ?_⟩
        intro u hu
        rcases List.mem_cons.mp hu with rfl | hu
        · exact hpa
        · exact hall u hu
      · rintro ⟨l₁, l₂, heq, hpx, hall⟩
        cases l₁ with
        | nil =>
          injection heq with h1 h2
          subst h1
          rw [hpx] at hpa
          cases hpa
        | cons b l₁ =>
          injection heq with h1 h2
          exact ⟨l₁, l₂, h2, hpx, fun u hu => hall u (by simp [hu])⟩

/-- C1: classification returns the first element of the requested-types
list, in the list's order, whose identifier occurs as a (contiguous)
substring of the lowercased display name, and `none` when no element does;
in particular, with (nonempty) artifact-type identifiers an empty display
name matches nothing, and a name containing several type substrings yields
the earliest-ordered requested type. -/
theorem classify_first_substring_match (N : String) (R : List String) :
    (∀ u : String, pyIn u (pyLower N) = true ↔
        ∃ l₁ l₂, (pyLower N).data = l₁ ++ (u.data ++ l₂)) ∧
    (∀ t, classify N R = some t ↔
        ∃ R₁ R₂, R = R₁ ++ t :: R₂ ∧ pyIn t (pyLower N) = true ∧
          ∀ u ∈ R₁, pyIn u (pyLower N) = false) ∧
    (classify N R = none ↔ ∀ t ∈ R, pyIn t (pyLower N) = false) ∧
    (N = "" → (∀ t ∈ R, t ≠ "") → classify N R = none) := by
  refine ⟨fun u => pyInChars_iff _ _, fun t => find?_first _ R t, ?_, ?_⟩
  · unfold classify
    rw [List.find?_eq_none]
    simp [Bool.not_eq_true]
  · rintro rfl hne
    show List.find? (fun t => pyIn t (pyLower "")) R = none
    apply List.find?_eq_none.mpr
    intro t ht
    rw [Bool.not_eq_true]
    have hne' : t.data ≠ [] := by
      intro hd
      apply hne t ht
      cases t with
      | mk d => cases hd; rfl
    have h0 : pyIn t (pyLower "") = t.data.isEmpty := rfl
    rw [h0]
    obtain ⟨c, cs, htd⟩ := List.exists_cons_of_ne_nil hne'
    rw [htd]
    rfl

theorem classify_first_substring_match_spot :
    classify "MFT_journal.bin" ["journal", "mft"] = some "journal" :=
  ((classify_first_substring_match "MFT_journal.bin" ["journal", "mft"]).2.1
      "journal").mpr
    ⟨[], ["mft"], rfl, by decide, by intro u hu; cases hu⟩

/-- Whether the loop body does work for input `i`: a type is classified,
it is truthy (Python `if matched_type`), and it is registered in `commands`
(line 87). -/
def dispatches (R : List String) (i : InputFile) : Bool :=
  match classify i.display_name R with
  | none => false
  | some t => (!(t == "")) && (commandFor t).isSome

theorem runLoop_cons (i : InputFile) (rest : List InputFile)
    (R : List String) (dir : String) :
    runLoop (i :: rest) R dir =
      (match processStep R dir i with
       | none => runLoop rest R dir
       | some oc =>
         (oc.1 :: (runLoop rest R dir).1, oc.2 :: (runLoop rest R dir).2)) := rfl

theorem processFiles_cons (i : InputFile) (rest : List InputFile)
    (R : List String) (dir : String) :
    processFiles (i :: rest) R dir =
      (match processStep R dir i with
       | none => processFiles rest R dir
       | some oc => oc.1 :: processFiles rest R dir) := by
  show (runLoop (i :: rest) R dir).1 = _
  rw [runLoop_cons]
  rcases h : processStep R dir i with _ | ⟨o, c⟩ <;> rfl

theorem execCmds_cons (i : InputFile) (rest : List InputFile)
    (R : List String) (dir : String) :
    execCmds (i :: rest) R dir =
      (match processStep R dir i with
       | none => execCmds rest R dir
       | some oc => oc.2 :: execCmds rest R dir) := by
  show (runLoop (i :: rest) R dir).2 = _
  rw [runLoop_cons]
  rcases h : processStep R dir i with _ | ⟨o, c⟩ <;> rfl

theorem processFiles_eq (inputs : List InputFile) (R : List String)
    (dir : String) :
    processFiles inputs R dir =
      (inputs.filter (fun i => dispatches R i)).map (mkOutputFile dir) := by
  induction inputs with
  | nil => rfl
  | cons i rest ih =>
    rw [processFiles_cons, List.filter_cons]
    rcases hc : classify i.display_name R with _ | t
    · have hps : processStep R dir i = none := by simp [processStep, hc]
      have hd : dispatches R i = false := by simp [dispatches, hc]
      simp [hps, hd, ih]
    · rcases hbe : (t == "") with _ | _
      · rcases hcf : commandFor t with _ | tpl
        · have hps : processStep R dir i = none := by
            simp [processStep, hc, hbe, hcf]
          have hd : dispatches R i = false := by simp [dispatches, hc, hbe, hcf]
          simp [hps, hd, ih]
        · have hps : processStep R dir i =
              some (mkOutputFile dir i, tpl ++ [i.path]) := by
            simp [processStep, hc, hbe, hcf]
          have hd : dispatches R i = true := by simp [dispatches, hc, hbe, hcf]
          simp [hps, hd, ih]
      · have hps : processStep R dir i = none := by simp [processStep, hc, hbe]
        have hd : dispatches R i = false := by simp [dispatches, hc, hbe]
        simp [hps, hd, ih]

theorem runLoop_nil_types (inputs : List InputFile) (dir : String) :
    runLoop inputs [] dir = ([], []) := by
  induction inputs with
  | nil => rfl
  | cons i rest ih => simp [runLoop, processStep, classify, ih]

theorem runLoop_unmatched (inputs : List InputFile) (R : List String)
    (dir : String) (h : ∀ i ∈ inputs, classify i.display_name R = none) :
    runLoop inputs R dir = ([], []) := by
  induction inputs with
  | nil => rfl
  | cons i rest ih =>
    have hc : classify i.display_name R = none := h i (by simp)
    have ih' := ih (fun j hj => h j (by simp [hj]))
    simp [runLoop, processStep, hc, ih']

theorem run_ok_fields (inputs : List InputFile) (R : List String)
    (dir wid : String) (r : TaskResult)
    (h : run inputs R dir wid = Except.ok r) :
    r.output_files = processFiles inputs R dir ∧
    r.workflow_id = wid ∧ r.meta = [] := by
  unfold run at h
  split at h
  · cases h
  · split at h
    · cases h
    · injection h with h
      subst h
      exact ⟨rfl, rfl, rfl⟩

theorem summaryParts_total (R : List String)
    (h : ∀ t ∈ R, (commandFor t).isSome = true) :
    ∀ outs : List OutputFile, ∃ parts, summaryParts (R.zip outs) = some parts := by
  induction R with
  | nil => intro outs; exact ⟨[], rfl⟩
  | cons t R ih =>
    intro outs
    cases outs with
    | nil => exact ⟨[], rfl⟩
    | cons o outs =>
      rcases Option.isSome_iff_exists.mp (h t (by simp)) with ⟨tpl, htpl⟩
      rcases ih (fun u hu => h u (by simp [hu])) outs with ⟨parts, hparts⟩
      refine ⟨joinWith " " (tpl ++ [o.path]) :: parts, ?_⟩
      rw [List.zip_cons_cons]
      show (match commandFor t with
        | none => none
        | some tpl =>
          (summaryParts (R.zip outs)).map
            (fun l => joinWith " " (tpl ++ [o.path]) :: l)) = _
      rw [htpl, hparts]
      rfl

/-- C2: the run raises its no-artifacts error exactly when the loop
produced zero output files; in particular it does so when the input list is
empty or when no input matches any requested type, and otherwise (for
requested types drawn from the registry, as the task configuration's fixed
checkbox options guarantee) it returns a task result. -/
theorem run_noArtifacts_iff (inputs : List InputFile) (R : List String)
    (dir wid : String) :
    (run inputs R dir wid = Except.error RunError.noArtifacts ↔
      processFiles inputs R dir = []) ∧
    (inputs = [] → run inputs R dir wid = Except.error RunError.noArtifacts) ∧
    ((∀ i ∈ inputs, classify i.display_name R = none) →
      run inputs R dir wid = Except.error RunError.noArtifacts) ∧
    ((∀ t ∈ R, (commandFor t).isSome = true) →
      processFiles inputs R dir ≠ [] →
      ∃ r, run inputs R dir wid = Except.ok r) := by
  have hiff : run inputs R dir wid = Except.error RunError.noArtifacts ↔
      processFiles inputs R dir = [] := by
    unfold run
    constructor
    · intro h
      split at h
      · exact List.isEmpty_iff.mp (by assumption)
      · split at h
        · cases h
        · cases h
    · intro h
      simp [h]
  refine ⟨hiff, ?_, ?_, ?_⟩
  · rintro rfl
    exact hiff.mpr rfl
  · intro h
    exact hiff.mpr (congrArg Prod.fst (runLoop_unmatched inputs R dir h))
  · intro hreg hne
    rcases summaryParts_total R hreg (processFiles inputs R dir) with ⟨parts, hparts⟩
    refine ⟨create_task_result (processFiles inputs R dir) wid
        (joinWith "; " parts) [], ?_⟩
    unfold run
    rw [if_neg (by simpa [List.isEmpty_iff] using hne), hparts]

theorem run_noArtifacts_iff_spot :
    run ([] : List InputFile) ["mft"] "/o" "w" =
      Except.error RunError.noArtifacts ∧
    (∃ r, run [⟨"MFT", "/p"⟩] ["mft"] "/o" "w" = Except.ok r) :=
  ⟨(run_noArtifacts_iff [] ["mft"] "/o" "w").2.1 rfl,
   (run_noArtifacts_iff [⟨"MFT", "/p"⟩] ["mft"] "/o" "w").2.2.2
     (by decide) (by decide)⟩

/-- C7: an input file whose lowercased display name matches no requested
type contributes no output file and no subprocess invocation; the run
processes the remaining files exactly as if that file were absent. -/
theorem unmatched_file_skipped (l₁ l₂ : List InputFile) (f : InputFile)
    (R : List String) (dir : String)
    (h : classify f.display_name R = none) :
    processFiles (l₁ ++ f :: l₂) R dir = processFiles (l₁ ++ l₂) R dir ∧
    execCmds (l₁ ++ f :: l₂) R dir = execCmds (l₁ ++ l₂) R dir := by
  have key : runLoop (l₁ ++ f :: l₂) R dir = runLoop (l₁ ++ l₂) R dir := by
    induction l₁ with
    | nil =>
      rw [List.nil_append, List.nil_append, runLoop_cons]
      have hps : processStep R dir f = none := by simp [processStep, h]
      rw [hps]
    | cons a l₁ ih =>
      rw [List.cons_append, List.cons_append, runLoop_cons, runLoop_cons, ih]
  exact ⟨congrArg Prod.fst key, congrArg Prod.snd key⟩

theorem unmatched_file_skipped_spot :
    processFiles [⟨"random.txt", "/r"⟩, ⟨"MFT", "/p"⟩] ["mft"] "/o" =
      processFiles [⟨"MFT", "/p"⟩] ["mft"] "/o" ∧
    execCmds [⟨"random.txt", "/r"⟩, ⟨"MFT", "/p"⟩] ["mft"] "/o" =
      execCmds [⟨"MFT", "/p"⟩] ["mft"] "/o" :=
  unmatched_file_skipped [] [⟨"MFT", "/p"⟩] ⟨"random.txt", "/r"⟩ ["mft"] "/o" rfl

/-- C9: when the requested-types configuration is absent or the empty list,
the run fails with the no-artifacts error for every input list, creating no
output file and invoking no subprocess. -/
theorem empty_config_always_fails (cfg : Option (List String))
    (inputs : List InputFile) (dir wid : String)
    (h : cfg = none ∨ cfg = some []) :
    command inputs cfg dir wid = Except.error RunError.noArtifacts ∧
    processFiles inputs [] dir = [] ∧
    execCmds inputs [] dir = [] := by
  have hloop := runLoop_nil_types inputs dir
  have hcfg : cfg.getD [] = [] := by rcases h with rfl | rfl <;> rfl
  refine ⟨?_, congrArg Prod.fst hloop, congrArg Prod.snd hloop⟩
  show run inputs (cfg.getD []) dir wid = Except.error RunError.noArtifacts
  rw [hcfg]
  unfold run
  rw [if_pos]
  show (processFiles inputs [] dir).isEmpty = true
  rw [show processFiles inputs [] dir = [] from congrArg Prod.fst hloop]
  rfl

theorem empty_config_always_fails_spot :
    command [⟨"MFT", "/p"⟩] none "/o" "w" = Except.error RunError.noArtifacts ∧
    processFiles [⟨"MFT", "/p"⟩] [] "/o" = [] ∧
    execCmds [⟨"MFT", "/p"⟩] [] "/o" = [] :=
  empty_config_always_fails none [⟨"MFT", "/p"⟩] "/o" "w" (Or.inl rfl)

/-- C10: in a successful run, the output files are exactly the in-order
image of the inputs the loop dispatched: their order follows the input
list's order and each input contributes at most one output file. -/
theorem outputs_follow_input_order (inputs : List InputFile)
    (R : List String) (dir wid : String) (r : TaskResult)
    (h : run inputs R dir wid = Except.ok r) :
    r.output_files =
      (inputs.filter (fun i => dispatches R i)).map (mkOutputFile dir) := by
  rw [(run_ok_fields inputs R dir wid r h).1]
  exact processFiles_eq inputs R dir

theorem outputs_follow_input_order_spot :
    ∃ r, run [⟨"MFT", "/a"⟩, ⟨"random.txt", "/b"⟩, ⟨"UsnJrnl_journal", "/c"⟩]
        ["mft", "journal"] "/o" "w" = Except.ok r ∧
      r.output_files =
        (([⟨"MFT", "/a"⟩, ⟨"random.txt", "/b"⟩, ⟨"UsnJrnl_journal", "/c"⟩] :
            List InputFile).filter
          (fun i => dispatches ["mft", "journal"] i)).map (mkOutputFile "/o") :=
  ⟨_, rfl, outputs_follow_input_order
    [⟨"MFT", "/a"⟩, ⟨"random.txt", "/b"⟩, ⟨"UsnJrnl_journal", "/c"⟩]
    ["mft", "journal"] "/o" "w" _ rfl⟩

/-- C3: the spec's summary scenario fails on the code. At input display
name "MFT_C.bin" with path "/in/MFT_C.bin" and requested types ["mft"], the
executed subprocess command is `fls -r /in/MFT_C.bin` (the input file's
path, line 95), but the returned summary string is
"fls -r /out/MFT_C.bin.txt" — line 107 renders the OUTPUT file's path, not
the matched input's. Moreover line 107 zips the summary positionally with
`artifact_types`: with requested types ["journal", "mft"] and the single
input "MFT", the command actually executed is `fls -r /q` yet the summary
reads "icat /out/MFT.txt". -/
theorem summary_misreports_commands :
    execCmds [⟨"MFT_C.bin", "/in/MFT_C.bin"⟩] ["mft"] "/out" =
      [["fls", "-r", "/in/MFT_C.bin"]] ∧
    run [⟨"MFT_C.bin", "/in/MFT_C.bin"⟩] ["mft"] "/out" "w" =
      Except.ok (create_task_result
        [create_output_file "/out" "MFT_C.bin" ".txt" "filesystem_artifact"]
        "w" "fls -r /out/MFT_C.bin.txt" []) ∧
    ("fls -r /out/MFT_C.bin.txt" ≠ "fls -r /in/MFT_C.bin") ∧
    run [⟨"MFT", "/q"⟩] ["journal", "mft"] "/out" "w" =
      Except.ok (create_task_result
        [create_output_file "/out" "MFT" ".txt" "filesystem_artifact"]
        "w" "icat /out/MFT.txt" []) ∧
    execCmds [⟨"MFT", "/q"⟩] ["journal", "mft"] "/out" = [["fls", "-r", "/q"]] :=
  ⟨rfl, rfl, by decide, rfl, rfl⟩

/-- C4: the registry maps mft to `fls -r` and journal, boot_log, logfile
and io3 to `icat`, and the command invoked for a classified, registered
input file is exactly that template with the input file's path appended. -/
theorem invoked_command_templates :
    commandFor "mft" = some ["fls", "-r"] ∧
    commandFor "journal" = some ["icat"] ∧
    commandFor "boot_log" = some ["icat"] ∧
    commandFor "logfile" = some ["icat"] ∧
    commandFor "io3" = some ["icat"] ∧
    ∀ (i : InputFile) (R : List String) (dir t : String) (tpl : List String),
      classify i.display_name R = some t → commandFor t = some tpl →
      execCmds [i] R dir = [tpl ++ [i.path]] := by
  refine ⟨rfl, rfl, rfl, rfl, rfl, ?_⟩
  intro i R dir t tpl hc hcf
  have hbe : (t == "") = false := by
    by_cases hte : t = ""
    · subst hte
      rw [show commandFor "" = none from rfl] at hcf
      cases hcf
    · simp [hte]
  have hps : processStep R dir i = some (mkOutputFile dir i, tpl ++ [i.path]) := by
    simp [processStep, hc, hbe, hcf]
  rw [execCmds_cons, hps]
  rfl

theorem invoked_command_templates_spot :
    execCmds [⟨"$LogFile.bin", "/in/lf"⟩] ["logfile"] "/o" =
      [["icat", "/in/lf"]] :=
  invoked_command_templates.2.2.2.2.2 ⟨"$LogFile.bin", "/in/lf"⟩ ["logfile"] "/o"
    "logfile" ["icat"] (by decide) rfl

/-- C5 counterexample: an unregistered identifier does NOT make the lookup
path fail the run — it is silently skipped. With requested types
["mft", "zip"], the file "a.zip" classifies as the unregistered type "zip";
the loop skips it (no output, no command, no error) and the whole run still
returns a task result built from the remaining file. -/
theorem unregistered_type_silently_skipped :
    classify "a.zip" ["mft", "zip"] = some "zip" ∧
    commandFor "zip" = none ∧
    runLoop [⟨"a.zip", "/a"⟩] ["mft", "zip"] "/o" = ([], []) ∧
    run [⟨"a.zip", "/a"⟩, ⟨"MFT", "/b"⟩] ["mft", "zip"] "/o" "w" =
      Except.ok (create_task_result
        [create_output_file "/o" "MFT" ".txt" "filesystem_artifact"]
        "w" "fls -r /o/MFT.txt" []) :=
  ⟨rfl, rfl, rfl, rfl⟩

/-- C5 amended: looking up the command template of an identifier that is
not one of the five registered types yields no entry (`commandFor t = none`
— a `KeyError` where the dict is subscripted, as in the summary line); but
in the dispatch loop a matched type that is not registered is silently
skipped: the guard of line 87 produces no output file, no subprocess and no
error for that file. -/
theorem commandFor_unregistered (t : String) :
    ((commandFor t).isSome = true ↔
      t ∈ ["mft", "journal", "boot_log", "logfile", "io3"]) ∧
    ∀ (i : InputFile) (R : List String) (dir : String),
      classify i.display_name R = some t → commandFor t = none →
      runLoop [i] R dir = ([], []) := by
  constructor
  · constructor
    · intro hs
      rcases Option.isSome_iff_exists.mp hs with ⟨tpl, htpl⟩
      rcases Option.map_eq_some'.mp htpl with ⟨p, hfind, hsnd⟩
      have hkey : p.1 = t := by simpa using List.find?_some hfind
      have hmem : p ∈ commands := List.mem_of_find?_eq_some hfind
      rw [← hkey]
      simp [commands] at hmem
      rcases hmem with rfl | rfl | rfl | rfl | rfl <;> decide
    · intro hmem
      have : t = "mft" ∨ t = "journal" ∨ t = "boot_log" ∨ t = "logfile" ∨
          t = "io3" := by simpa using hmem
      rcases this with rfl | rfl | rfl | rfl | rfl <;> rfl
  · intro i R dir hc hcf
    rw [runLoop_cons]
    have hps : processStep R dir i = none := by
      by_cases hte : t = ""
      · subst hte
        simp [processStep, hc]
      · simp [processStep, hc, hcf, hte]
    rw [hps]
    rfl

theorem commandFor_unregistered_spot :
    runLoop [⟨"a.zip", "/p"⟩] ["zip"] "/o" = ([], []) :=
  (commandFor_unregistered "zip").2 ⟨"a.zip", "/p"⟩ ["zip"] "/o" (by decide) rfl

theorem processStep_fst (R : List String) (dir : String) (i : InputFile)
    (p : OutputFile × List String) (h : processStep R dir i = some p) :
    p.1 = mkOutputFile dir i := by
  unfold processStep at h
  split at h
  · cases h
  · split at h
    · cases h
    · split at h
      · cases h
      · injection h with h
        rw [← h]

theorem processFiles_mem (inputs : List InputFile) (R : List String)
    (dir : String) :
    ∀ o ∈ processFiles inputs R dir,
      o.extension = ".txt" ∧ o.data_type = "filesystem_artifact" ∧
      ∃ i ∈ inputs, o.display_name = i.display_name := by
  induction inputs with
  | nil =>
    intro o ho
    rw [show processFiles [] R dir = [] from rfl] at ho
    cases ho
  | cons i rest ih =>
    intro o ho
    rw [processFiles_cons] at ho
    rcases hps : processStep R dir i with _ | p
    · rw [hps] at ho
      rcases ih o ho with ⟨h1, h2, j, hj, h3⟩
      exact ⟨h1, h2, j, List.mem_cons_of_mem _ hj, h3⟩
    · rw [hps] at ho
      rcases List.mem_cons.mp ho with rfl | ho'
      · have hp1 := processStep_fst R dir i p hps
        rw [hp1]
        exact ⟨rfl, rfl, i, List.mem_cons_self i rest, rfl⟩
      · rcases ih o ho' with ⟨h1, h2, j, hj, h3⟩
        exact ⟨h1, h2, j, List.mem_cons_of_mem _ hj, h3⟩

/-- C6: every output file of a run has extension ".txt", data type
"filesystem_artifact" and a display name copied unchanged from an input
file, and a successful run's task result carries exactly the produced
output files, the workflow identifier unchanged, and empty metadata. -/
theorem output_file_fields (inputs : List InputFile) (R : List String)
    (dir wid : String) (r : TaskResult)
    (h : run inputs R dir wid = Except.ok r) :
    r.output_files = processFiles inputs R dir ∧
    r.workflow_id = wid ∧ r.meta = [] ∧
    ∀ o ∈ r.output_files,
      o.extension = ".txt" ∧ o.data_type = "filesystem_artifact" ∧
      ∃ i ∈ inputs, o.display_name = i.display_name := by
  rcases run_ok_fields inputs R dir wid r h with ⟨h1, h2, h3⟩
  refine ⟨h1, h2, h3, ?_⟩
  rw [h1]
  exact processFiles_mem inputs R dir

theorem output_file_fields_spot :
    ∃ r, run [⟨"MFT", "/p"⟩] ["mft"] "/o" "w" = Except.ok r ∧
      (r.output_files = processFiles [⟨"MFT", "/p"⟩] ["mft"] "/o" ∧
       r.workflow_id = "w" ∧ r.meta = [] ∧
       ∀ o ∈ r.output_files,
         o.extension = ".txt" ∧ o.data_type = "filesystem_artifact" ∧
         ∃ i ∈ [(⟨"MFT", "/p"⟩ : InputFile)], o.display_name = i.display_name) :=
  ⟨_, rfl, output_file_fields [⟨"MFT", "/p"⟩] ["mft"] "/o" "w" _ rfl⟩

/-- C8: running the loop twice over the same inputs and requested types
with two output directories yields output lists of equal length whose
corresponding entries have identical display names and data-type tags,
their paths differing only in the leading directory component. -/
theorem rerun_distinct_dirs (inputs : List InputFile) (R : List String)
    (d₁ d₂ : String) :
    (processFiles inputs R d₁).length = (processFiles inputs R d₂).length ∧
    List.Forall₂ (fun a b : OutputFile =>
        a.display_name = b.display_name ∧ a.data_type = b.data_type ∧
        ∃ rest, a.path = d₁ ++ rest ∧ b.path = d₂ ++ rest)
      (processFiles inputs R d₁) (processFiles inputs R d₂) := by
  have h : List.Forall₂ (fun a b : OutputFile =>
      a.display_name = b.display_name ∧ a.data_type = b.data_type ∧
      ∃ rest, a.path = d₁ ++ rest ∧ b.path = d₂ ++ rest)
      (processFiles inputs R d₁) (processFiles inputs R d₂) := by
    rw [processFiles_eq, processFiles_eq]
    induction inputs.filter (fun i => dispatches R i) with
    | nil => exact List.Forall₂.nil
    | cons i rest ih =>
      exact List.Forall₂.cons
        ⟨rfl, rfl, "/" ++ (i.display_name ++ ".txt"), rfl, rfl⟩ ih
  exact ⟨h.length_eq, h⟩

theorem rerun_distinct_dirs_spot :
    (processFiles [⟨"MFT", "/p"⟩] ["mft"] "/d1").length =
      (processFiles [⟨"MFT", "/p"⟩] ["mft"] "/d2").length :=
  (rerun_distinct_dirs [⟨"MFT", "/p"⟩] ["mft"] "/d1" "/d2").1

